import Mathlib

/-!
Verification of the image post-processing pipeline of the `make_illust`
repository: the depth segmenter (`server/depth_anything.py`), the matte edge
cleaner and the concurrent batch runner (`server/main.py`).

All numeric values are embedded as exact rationals (`ℚ`); machine integers of
the pixel code are embedded as `ℕ`.  External collaborators (the HTTP depth
estimator, the `rembg` matting calls, the Gemini image calls) are embedded as
explicit `Except`-valued oracles passed in as parameters.
-/

namespace MakeIllust

/-! ## Depth pipeline (`server/depth_anything.py`) -/

/-- Linear-interpolation lookup used by `np.percentile` (default `linear`
method): for a virtual position `pos`, take `s[⌊pos⌋] + frac * (s[⌊pos⌋+1] -
s[⌊pos⌋])`.  Out-of-range reads default to `0`; they are always multiplied by
a zero fraction for the positions this file uses. -/
def interpAt (s : List ℚ) (pos : ℚ) : ℚ :=
  s.getD (Int.floor pos).toNat 0
    + (pos - ((Int.floor pos).toNat : ℚ))
      * (s.getD ((Int.floor pos).toNat + 1) 0 - s.getD (Int.floor pos).toNat 0)

/-- `np.percentile(a, q)` with the default linear interpolation: sort the
values ascending and interpolate at virtual index `q/100 * (n-1)`. -/
def percentile (q : ℚ) (l : List ℚ) : ℚ :=
  interpAt (l.insertionSort (· ≤ ·)) (q * ((l.length : ℚ) - 1) / 100)

/-- `foreground_mask = depth_array < percentiles[0]`
(`analyze_depth_array`, elementwise comparison with the 30th percentile). -/
def foreground_mask (g : List (List ℚ)) : List (List Bool) :=
  g.map (fun row => row.map (fun v => decide (v < percentile 30 g.flatten)))

/-- `midground_mask = (depth_array >= percentiles[0]) & (depth_array < percentiles[1])`. -/
def midground_mask (g : List (List ℚ)) : List (List Bool) :=
  g.map (fun row => row.map (fun v =>
    decide (percentile 30 g.flatten ≤ v) && decide (v < percentile 70 g.flatten)))

/-- `background_mask = depth_array >= percentiles[1]`. -/
def background_mask (g : List (List ℚ)) : List (List Bool) :=
  g.map (fun row => row.map (fun v => decide (percentile 70 g.flatten ≤ v)))

/-- `foreground_ratio = np.sum(foreground_mask) / depth_array.size`. -/
def foreground_ratio (g : List (List ℚ)) : ℚ :=
  ((g.flatten.countP (fun v => decide (v < percentile 30 g.flatten)) : ℚ)) /
    (g.flatten.length : ℚ)

/-- `person_bounds` of the returned `subject_detection` dictionary. -/
structure PersonBounds where
  x : ℚ
  y : ℚ
  width : ℚ
  height : ℚ
deriving DecidableEq, Repr

/-- The `subject_detection` dictionary.  `confidence` is `none` in the default
result, which omits the key. -/
structure SubjectDetection where
  has_person : Bool
  person_position : String
  person_description : String
  person_bounds : PersonBounds
  confidence : Option ℚ
deriving DecidableEq, Repr

/-- One entry of the `layers` list.  `content` is `none` in the default
result, which omits the key. -/
structure Layer where
  name : String
  depth : ℚ
  content : Option String
  parallax_strength : String
  movement : String
  scale : ℚ
  blur : ℚ
  opacity : ℚ
  animation_speed : ℚ
deriving DecidableEq, Repr

/-- The `depth_statistics` dictionary (absent from the default result). -/
structure DepthStatistics where
  min : ℚ
  max : ℚ
  mean : ℚ
  foreground_percentage : ℚ
deriving DecidableEq, Repr

/-- The dictionary returned by the depth pipeline. -/
structure DepthResult where
  subject_detection : SubjectDetection
  layers : List Layer
  depth_statistics : Option DepthStatistics
deriving DecidableEq, Repr

/-- `get_default_depth_result()`: the static fallback structure. -/
def get_default_depth_result : DepthResult :=
  { subject_detection :=
      { has_person := false
        person_position := "unknown"
        person_description := "No depth analysis available"
        person_bounds := { x := 50, y := 50, width := 30, height := 40 }
        confidence := none }
    layers :=
      [ { name := "background", depth := 90, content := none,
          parallax_strength := "strong", movement := "horizontal",
          scale := 13/10, blur := 3, opacity := 4/5, animation_speed := 30 },
        { name := "midground", depth := 50, content := none,
          parallax_strength := "medium", movement := "both",
          scale := 11/10, blur := 1, opacity := 9/10, animation_speed := 25 },
        { name := "foreground", depth := 10, content := none,
          parallax_strength := "weak", movement := "horizontal",
          scale := 1, blur := 0, opacity := 1, animation_speed := 20 } ]
    depth_statistics := none }

/-- `get_region_center(mask)` specialised to the foreground mask: the mean
`np.where` coordinates scaled to percentages, `(x, y)` order as used by the
caller; `( 50, 50)` when the mask is empty.  Row length is taken from the
first row (numpy arrays are rectangular). -/
def get_region_center (g : List (List ℚ)) (mask : ℚ → Bool) : ℚ × ℚ :=
  let coords : List (ℕ × ℕ) :=
    (g.enum.map (fun yr =>
      (yr.2.enum.filterMap (fun xv =>
        if mask xv.2 then some (yr.1, xv.1) else none)))).flatten
  if coords.length = 0 then (50, 50)
  else
    let h : ℚ := (g.length : ℚ)
    let w : ℚ := ((g.getD 0 []).length : ℚ)
    (((coords.map (fun c => (c.2 : ℚ))).sum / (coords.length : ℚ)) / w * 100,
     ((coords.map (fun c => (c.1 : ℚ))).sum / (coords.length : ℚ)) / h * 100)

/-- Minimum of a value list (`np.min` over a nonempty array; `0` placeholder
on the empty array, where the Python call raises and the enclosing handler
returns the default result instead). -/
def listMin (l : List ℚ) : ℚ :=
  match l with
  | [] => 0
  | x :: xs => xs.foldl min x

/-- Maximum of a value list (`np.max`). -/
def listMax (l : List ℚ) : ℚ :=
  match l with
  | [] => 0
  | x :: xs => xs.foldl max x

/-- `analyze_depth_array(depth_array)`.  The body is wrapped in
`try/except`: the only statement that can raise on a rational-valued grid is
`np.min` (and the subsequent reductions) on an empty array, so the `except`
branch — which returns `get_default_depth_result()` — is taken exactly when
the grid has no cells. -/
def analyze_depth_array (g : List (List ℚ)) : DepthResult :=
  if g.flatten = [] then get_default_depth_result
  else
    let vals := g.flatten
    let minDepth := listMin vals
    let maxDepth := listMax vals
    let meanDepth := vals.sum / (vals.length : ℚ)
    let fgRatio := foreground_ratio g
    let hasPerson : Bool := decide (1/20 < fgRatio) && decide (fgRatio < 1/2)
    let center := get_region_center g (fun v => decide (v < percentile 30 g.flatten))
    { subject_detection :=
        { has_person := hasPerson
          person_position := if hasPerson then "foreground" else "unknown"
          person_description := "Detected subject in foreground based on depth map"
          person_bounds :=
            { x := center.1 - 20, y := center.2 - 30, width := 40, height := 60 }
          confidence := some fgRatio }
      layers :=
        [ { name := "background", depth := 85,
            content := some "Far background elements",
            parallax_strength := "strong", movement := "horizontal",
            scale := 13/10, blur := 5/2, opacity := 17/20, animation_speed := 35 },
          { name := "midground", depth := 50,
            content := some "Middle distance elements",
            parallax_strength := "medium", movement := "both",
            scale := 23/20, blur := 1, opacity := 23/25, animation_speed := 28 },
          { name := "foreground", depth := 15,
            content := some (if hasPerson then "Person/subject detected"
                             else "Foreground elements"),
            parallax_strength := "weak", movement := "horizontal",
            scale := 1, blur := 0, opacity := 1, animation_speed := 22 } ]
      depth_statistics :=
        some { min := minDepth, max := maxDepth, mean := meanDepth,
               foreground_percentage := fgRatio } }

/-- `analyze_depth_map(depth_map_base64)`: base64/image decoding is an
external effect, embedded as an `Except`-valued input; its failure branch
returns the default result. -/
def analyze_depth_map (decoded : Except Unit (List (List ℚ))) : DepthResult :=
  match decoded with
  | .error _ => get_default_depth_result
  | .ok g => analyze_depth_array g

/-- `estimate_depth_hf_api`: the external HTTP request is embedded as an
`Except`-valued input carrying a status code and the decoded depth grid.  A
raised exception (`.error`) or a non-200 status yields the default result. -/
def estimate_depth_hf_api
    (request : Except Unit (ℕ × Except Unit (List (List ℚ)))) : DepthResult :=
  match request with
  | .error _ => get_default_depth_result
  | .ok (status, decoded) =>
      if status = 200 then analyze_depth_map decoded else get_default_depth_result

/-! ### Percentile monotonicity -/

lemma sorted_getD_le (s : List ℚ) (hs : List.Sorted (· ≤ ·) s) {i j : ℕ}
    (hij : i ≤ j) (hj : j < s.length) : s.getD i 0 ≤ s.getD j 0 := by
  have hi : i < s.length := lt_of_le_of_lt hij hj
  rw [List.getD_eq_getElem s 0 hi, List.getD_eq_getElem s 0 hj]
  exact hs.rel_get_of_le (a := ⟨i, hi⟩) (b := ⟨j, hj⟩) hij

lemma interpAt_le (s : List ℚ) (hs : List.Sorted (· ≤ ·) s) (p1 p2 : ℚ)
    (h0 : 0 ≤ p1) (h12 : p1 ≤ p2) (h2 : p2 ≤ (s.length : ℚ) - 1) :
    interpAt s p1 ≤ interpAt s p2 := by
  have h0' : 0 ≤ p2 := le_trans h0 h12
  have hn : 1 ≤ s.length := by
    by_contra hcon
    have : s.length = 0 := by omega
    rw [this] at h2
    norm_num at h2
    linarith
  unfold interpAt
  set n := s.length with hndef
  set i1 : ℕ := (Int.floor p1).toNat with hi1def
  set i2 : ℕ := (Int.floor p2).toNat with hi2def
  have hc1 : (i1 : ℚ) = Int.floor p1 := by
    rw [hi1def]
    exact_mod_cast Int.toNat_of_nonneg (Int.floor_nonneg.mpr h0)
  have hc2 : (i2 : ℚ) = Int.floor p2 := by
    rw [hi2def]
    exact_mod_cast Int.toNat_of_nonneg (Int.floor_nonneg.mpr h0')
  have hf1lo : (i1 : ℚ) ≤ p1 := by rw [hc1]; exact Int.floor_le p1
  have hf2lo : (i2 : ℚ) ≤ p2 := by rw [hc2]; exact Int.floor_le p2
  have hf1hi : p1 < (i1 : ℚ) + 1 := by rw [hc1]; exact Int.lt_floor_add_one p1
  have hcastn : ((n - 1 : ℕ) : ℚ) = (n : ℚ) - 1 := by
    push_cast [hn]
    ring
  have hi1n : i1 ≤ n - 1 := by
    have : (i1 : ℚ) ≤ ((n - 1 : ℕ) : ℚ) := by rw [hcastn]; linarith
    exact_mod_cast this
  have hi2n : i2 ≤ n - 1 := by
    have : (i2 : ℚ) ≤ ((n - 1 : ℕ) : ℚ) := by rw [hcastn]; linarith
    exact_mod_cast this
  have hi12 : i1 ≤ i2 := by
    rw [hi1def, hi2def]
    exact Int.toNat_le_toNat (Int.floor_le_floor h12)
  rcases eq_or_lt_of_le hi12 with hEq | hLt
  · -- same interpolation cell
    rw [hEq]
    by_cases hcell : i2 + 1 < n
    · have hd : s.getD i2 0 ≤ s.getD (i2 + 1) 0 :=
        sorted_getD_le s hs (Nat.le_succ i2) hcell
      have : (p1 - (i2 : ℚ)) * (s.getD (i2 + 1) 0 - s.getD i2 0)
          ≤ (p2 - (i2 : ℚ)) * (s.getD (i2 + 1) 0 - s.getD i2 0) := by
        apply mul_le_mul_of_nonneg_right (by linarith) (by linarith)
      linarith
    · -- last cell: both positions are pinned to n-1
      have hi2top : i2 = n - 1 := by omega
      have hptop : p2 ≤ (i2 : ℚ) := by
        rw [hi2top, hcastn]; linarith
      have hp12 : p1 = p2 := by
        have h1 : (i2 : ℚ) ≤ p1 := by rw [← hEq]; exact hf1lo
        linarith
      rw [hp12]
  · -- i1 < i2: chain through the cell boundary values
    have hi1succ : i1 + 1 ≤ i2 := hLt
    have hi2ltn : i2 < n := by omega
    have hi1succltn : i1 + 1 < n := by omega
    have hd1 : s.getD i1 0 ≤ s.getD (i1 + 1) 0 :=
      sorted_getD_le s hs (Nat.le_succ i1) hi1succltn
    have hstep1 : s.getD i1 0 + (p1 - (i1 : ℚ)) * (s.getD (i1 + 1) 0 - s.getD i1 0)
        ≤ s.getD (i1 + 1) 0 := by
      nlinarith [mul_nonneg (by linarith : (0:ℚ) ≤ (i1 : ℚ) + 1 - p1)
        (by linarith : (0:ℚ) ≤ s.getD (i1 + 1) 0 - s.getD i1 0)]
    have hstep2 : s.getD (i1 + 1) 0 ≤ s.getD i2 0 :=
      sorted_getD_le s hs hi1succ hi2ltn
    have hstep3 : s.getD i2 0
        ≤ s.getD i2 0 + (p2 - (i2 : ℚ)) * (s.getD (i2 + 1) 0 - s.getD i2 0) := by
      by_cases hcell : i2 + 1 < n
      · have hd2 : s.getD i2 0 ≤ s.getD (i2 + 1) 0 :=
          sorted_getD_le s hs (Nat.le_succ i2) hcell
        nlinarith [mul_nonneg (by linarith : (0:ℚ) ≤ p2 - (i2 : ℚ))
          (by linarith : (0:ℚ) ≤ s.getD (i2 + 1) 0 - s.getD i2 0)]
      · have hi2top : i2 = n - 1 := by omega
        have hptop : p2 ≤ (i2 : ℚ) := by rw [hi2top, hcastn]; linarith
        have hzero : p2 - (i2 : ℚ) = 0 := by linarith
        rw [hzero, zero_mul]
        linarith
    linarith

lemma percentile_le_percentile (l : List ℚ) (hl : l ≠ []) (q1 q2 : ℚ)
    (h0 : 0 ≤ q1) (h12 : q1 ≤ q2) (h100 : q2 ≤ 100) :
    percentile q1 l ≤ percentile q2 l := by
  have hlen : 1 ≤ l.length := List.length_pos.mpr hl
  have hlen' : (l.insertionSort (· ≤ ·)).length = l.length :=
    (List.perm_insertionSort _ l).length_eq
  have hlenq : (0:ℚ) ≤ (l.length : ℚ) - 1 := by
    have : (1:ℚ) ≤ (l.length : ℚ) := by exact_mod_cast hlen
    linarith
  unfold percentile
  apply interpAt_le _ (List.sorted_insertionSort _ l)
  · exact div_nonneg (mul_nonneg h0 hlenq) (by norm_num)
  · linarith [mul_le_mul_of_nonneg_right h12 hlenq]
  · rw [hlen']
    rw [div_le_iff₀ (by norm_num : (0:ℚ) < 100)]
    nlinarith [mul_le_mul_of_nonneg_right h100 hlenq]

lemma getD_map_map (g : List (List ℚ)) (f : ℚ → Bool) {y x : ℕ}
    (hy : y < g.length) (hx : x < (g.getD y []).length) :
    ((g.map (fun row => row.map f)).getD y []).getD x false
      = f ((g.getD y []).getD x 0) := by
  have hy' : y < (g.map (fun row => row.map f)).length := by simpa using hy
  have hxy : x < (g[y]).length := by
    rwa [List.getD_eq_getElem _ _ hy] at hx
  have hx' : x < ((g[y]).map f).length := by simpa using hxy
  rw [List.getD_eq_getElem _ _ hy', List.getElem_map, List.getD_eq_getElem _ _ hx',
    List.getElem_map, List.getD_eq_getElem _ _ hy, List.getD_eq_getElem _ _ hxy]

/-- C1: for every non-empty depth grid, the foreground (`v < p30`), midground
(`p30 ≤ v < p70`) and background (`v ≥ p70`) masks computed by
`analyze_depth_array` are pairwise disjoint and their union covers every cell
of the grid: every pixel lies in exactly one of the three bands. -/
theorem depth_band_masks_partition (g : List (List ℚ))
    (hne : g.flatten ≠ []) (y x : ℕ)
    (hy : y < g.length) (hx : x < (g.getD y []).length) :
    ((((foreground_mask g).getD y []).getD x false = true
        ∨ ((midground_mask g).getD y []).getD x false = true
        ∨ ((background_mask g).getD y []).getD x false = true)
      ∧ ¬(((foreground_mask g).getD y []).getD x false = true
            ∧ ((midground_mask g).getD y []).getD x false = true)
      ∧ ¬(((foreground_mask g).getD y []).getD x false = true
            ∧ ((background_mask g).getD y []).getD x false = true)
      ∧ ¬(((midground_mask g).getD y []).getD x false = true
            ∧ ((background_mask g).getD y []).getD x false = true)) := by
  have hp : percentile 30 g.flatten ≤ percentile 70 g.flatten :=
    percentile_le_percentile g.flatten hne 30 70 (by norm_num) (by norm_num)
      (by norm_num)
  unfold foreground_mask midground_mask background_mask
  rw [getD_map_map g _ hy hx, getD_map_map g _ hy hx, getD_map_map g _ hy hx]
  set v := (g.getD y []).getD x 0 with hv
  simp only [Bool.and_eq_true, decide_eq_true_eq]
  refine ⟨?_, ?_, ?_, ?_⟩
  · rcases lt_or_le v (percentile 30 g.flatten) with h | h
    · exact Or.inl h
    · rcases lt_or_le v (percentile 70 g.flatten) with h' | h'
      · exact Or.inr (Or.inl ⟨h, h'⟩)
      · exact Or.inr (Or.inr h')
  · rintro ⟨h1, h2, _⟩; linarith
  · rintro ⟨h1, h2⟩; linarith
  · rintro ⟨⟨_, h1⟩, h2⟩; linarith

/-- Witness for C1 at the concrete grid `[[1,2],[3,4]]`, cell `(0,0)`. -/
theorem depth_band_masks_partition_witness :
    (([[(1:ℚ),2],[3,4]] : List (List ℚ)).flatten ≠ []
      ∧ 0 < ([[(1:ℚ),2],[3,4]] : List (List ℚ)).length
      ∧ 0 < (([[(1:ℚ),2],[3,4]] : List (List ℚ)).getD 0 []).length)
    ∧ ((((foreground_mask [[(1:ℚ),2],[3,4]]).getD 0 []).getD 0 false = true
        ∨ ((midground_mask [[(1:ℚ),2],[3,4]]).getD 0 []).getD 0 false = true
        ∨ ((background_mask [[(1:ℚ),2],[3,4]]).getD 0 []).getD 0 false = true)
      ∧ ¬(((foreground_mask [[(1:ℚ),2],[3,4]]).getD 0 []).getD 0 false = true
            ∧ ((midground_mask [[(1:ℚ),2],[3,4]]).getD 0 []).getD 0 false = true)
      ∧ ¬(((foreground_mask [[(1:ℚ),2],[3,4]]).getD 0 []).getD 0 false = true
            ∧ ((background_mask [[(1:ℚ),2],[3,4]]).getD 0 []).getD 0 false = true)
      ∧ ¬(((midground_mask [[(1:ℚ),2],[3,4]]).getD 0 []).getD 0 false = true
            ∧ ((background_mask [[(1:ℚ),2],[3,4]]).getD 0 []).getD 0 false = true)) :=
  ⟨⟨by decide, by decide, by decide⟩,
    depth_band_masks_partition [[(1:ℚ),2],[3,4]] (by decide) 0 0 (by decide) (by decide)⟩

/-- C7: for every non-empty depth grid, `has_person` is true iff the
foreground-mask pixel ratio lies strictly between `0.05` and `0.5`; the
boundary ratios `0.05` and `0.5` themselves yield `has_person = false`. -/
theorem has_person_iff_ratio_strictly_between (g : List (List ℚ))
    (hne : g.flatten ≠ []) :
    ((analyze_depth_array g).subject_detection.has_person = true
        ↔ (1/20 < foreground_ratio g ∧ foreground_ratio g < 1/2))
    ∧ (foreground_ratio g = 1/20
        → (analyze_depth_array g).subject_detection.has_person = false)
    ∧ (foreground_ratio g = 1/2
        → (analyze_depth_array g).subject_detection.has_person = false) := by
  unfold analyze_depth_array
  rw [if_neg hne]
  refine ⟨by simp, ?_, ?_⟩
  · intro h
    rw [h]
    simp
  · intro h
    rw [h]
    simp

/-- Witness for C7 at the grid `[[1,2],[3,4]]` (foreground ratio `1/4`). -/
theorem has_person_iff_ratio_strictly_between_witness :
    (([[(1:ℚ),2],[3,4]] : List (List ℚ)).flatten ≠ [])
    ∧ (((analyze_depth_array [[(1:ℚ),2],[3,4]]).subject_detection.has_person = true
        ↔ (1/20 < foreground_ratio [[(1:ℚ),2],[3,4]]
            ∧ foreground_ratio [[(1:ℚ),2],[3,4]] < 1/2))
      ∧ (foreground_ratio [[(1:ℚ),2],[3,4]] = 1/20
          → (analyze_depth_array [[(1:ℚ),2],[3,4]]).subject_detection.has_person = false)
      ∧ (foreground_ratio [[(1:ℚ),2],[3,4]] = 1/2
          → (analyze_depth_array [[(1:ℚ),2],[3,4]]).subject_detection.has_person = false)) :=
  ⟨by decide, has_person_iff_ratio_strictly_between [[(1:ℚ),2],[3,4]] (by decide)⟩

/-- C8: whenever the external depth estimator fails (the request raises),
`estimate_depth_hf_api` returns exactly the documented default three-layer
structure — background depth 90 / strong / scale 1.3 / blur 3 / opacity 0.8 /
speed 30, midground depth 50 / medium / scale 1.1 / blur 1 / opacity 0.9 /
speed 25, foreground depth 10 / weak / scale 1.0 / blur 0 / opacity 1.0 /
speed 20 — and never a propagated error (the embedding is a total function
into `DepthResult`). -/
theorem estimator_failure_yields_default
    (request : Except Unit (ℕ × Except Unit (List (List ℚ))))
    (e : Unit) (h : request = Except.error e) :
    estimate_depth_hf_api request =
      { subject_detection :=
          { has_person := false
            person_position := "unknown"
            person_description := "No depth analysis available"
            person_bounds := { x := 50, y := 50, width := 30, height := 40 }
            confidence := none }
        layers :=
          [ { name := "background", depth := 90, content := none,
              parallax_strength := "strong", movement := "horizontal",
              scale := 13/10, blur := 3, opacity := 4/5, animation_speed := 30 },
            { name := "midground", depth := 50, content := none,
              parallax_strength := "medium", movement := "both",
              scale := 11/10, blur := 1, opacity := 9/10, animation_speed := 25 },
            { name := "foreground", depth := 10, content := none,
              parallax_strength := "weak", movement := "horizontal",
              scale := 1, blur := 0, opacity := 1, animation_speed := 20 } ]
        depth_statistics := none } := by
  subst h
  rfl

/-- Witness for C8: the failing request. -/
theorem estimator_failure_yields_default_witness :
    (Except.error () = (Except.error () : Except Unit (ℕ × Except Unit (List (List ℚ)))))
    ∧ estimate_depth_hf_api (Except.error ()) =
      { subject_detection :=
          { has_person := false
            person_position := "unknown"
            person_description := "No depth analysis available"
            person_bounds := { x := 50, y := 50, width := 30, height := 40 }
            confidence := none }
        layers :=
          [ { name := "background", depth := 90, content := none,
              parallax_strength := "strong", movement := "horizontal",
              scale := 13/10, blur := 3, opacity := 4/5, animation_speed := 30 },
            { name := "midground", depth := 50, content := none,
              parallax_strength := "medium", movement := "both",
              scale := 11/10, blur := 1, opacity := 9/10, animation_speed := 25 },
            { name := "foreground", depth := 10, content := none,
              parallax_strength := "weak", movement := "horizontal",
              scale := 1, blur := 0, opacity := 1, animation_speed := 20 } ]
        depth_statistics := none } :=
  ⟨rfl, estimator_failure_yields_default (Except.error ()) () rfl⟩

/-- C10 counterexample: on the malformed inputs the claim singles out — the
empty grid and the zero-dimension grid — `analyze_depth_array` does not
reject with an error: the blanket `except` handler silently coerces them into
the ordinary default result, so the caller receives a normal `DepthResult`. -/
theorem malformed_grid_not_rejected :
    analyze_depth_array ([] : List (List ℚ)) = get_default_depth_result
    ∧ analyze_depth_array ([[]] : List (List ℚ)) = get_default_depth_result :=
  ⟨rfl, rfl⟩

/-- C10 amended: any grid with no cells is converted by the exception handler
of `analyze_depth_array` into the default depth result instead of being
rejected with a descriptive error. -/
theorem empty_grid_coerced_to_default (g : List (List ℚ))
    (h : g.flatten = []) :
    analyze_depth_array g = get_default_depth_result := by
  unfold analyze_depth_array
  rw [if_pos h]

/-- Witness for the amended C10 at the zero-width grid `[[], []]`. -/
theorem empty_grid_coerced_to_default_witness :
    (([[], []] : List (List ℚ)).flatten = [])
    ∧ analyze_depth_array ([[], []] : List (List ℚ)) = get_default_depth_result :=
  ⟨by decide, empty_grid_coerced_to_default [[], []] (by decide)⟩

/-! ## Concurrent batch runner
(`generate_images_with_vertex_simple`, `server/main.py`)

The external Gemini calls are embedded as `Except`-valued oracles indexed by
task index: `edit i` is the edit call referencing the base image, `fresh i`
the fallback fresh generation with the same prompt and no base image.  The
order in which the concurrently submitted futures complete is embedded as a
list of task indices (`order`), a permutation of the submitted indices. -/

/-- `generate_expression(expression_data)`: try the edit call (referencing
the base image); on exception, fall back once to a fresh generation call with
no base-image reference.  A failure of the fallback propagates out of the
task. -/
def generate_expression {α E : Type} (edit fresh : ℕ → Except E α) (i : ℕ) :
    Except E α :=
  match edit i with
  | .ok r => .ok r
  | .error _ => fresh i

/-- The `as_completed` collection loop: task results arrive in completion
order and are stored keyed by original task index (`results[idx] = result`);
the first future observed to have failed raises, aborting the batch and
identifying the failed task index. -/
def collect_results {α E : Type} (g : ℕ → Except E α) :
    List ℕ → Except (ℕ × E) (List (ℕ × α))
  | [] => .ok []
  | i :: rest =>
    match g i with
    | .error e => .error (i, e)
    | .ok r =>
      match collect_results g rest with
      | .error f => .error f
      | .ok ps => .ok ((i, r) :: ps)

/-- `for idx in sorted(results.keys()): images.append(results[idx])`:
reassemble the index-keyed results in ascending index order. -/
def assemble_in_index_order {α : Type} (pairs : List (ℕ × α)) : List α :=
  ((pairs.map Prod.fst).insertionSort (· ≤ ·)).filterMap fun i => pairs.lookup i

/-- The batch runner: the base image is generated first by a call with no
base-image reference and becomes `images[0]`; the edit tasks are submitted to
the pool and collected by `collect_results`, then appended in index order.  A
base-call failure is reported without a task index (`none`). -/
def run_batch {α E : Type} (baseCall : Except E α) (edit fresh : ℕ → Except E α)
    (order : List ℕ) : Except (Option ℕ × E) (List α) :=
  match baseCall with
  | .error e => .error (none, e)
  | .ok b =>
    match collect_results (generate_expression edit fresh) order with
    | .error f => .error (some f.1, f.2)
    | .ok pairs => .ok (b :: assemble_in_index_order pairs)

lemma collect_results_ok {α E : Type} (g : ℕ → Except E α) (res : ℕ → α)
    (order : List ℕ) (hok : ∀ i ∈ order, g i = .ok (res i)) :
    collect_results g order = .ok (order.map fun i => (i, res i)) := by
  induction order with
  | nil => rfl
  | cons j rest ih =>
    have hj : g j = .ok (res j) := hok j (List.mem_cons_self j rest)
    have hrest : collect_results g rest = .ok (rest.map fun i => (i, res i)) :=
      ih fun i hi => hok i (List.mem_cons_of_mem j hi)
    simp [collect_results, hj, hrest]

lemma lookup_map_pair (res : ℕ → α) (order : List ℕ) (i : ℕ) (hi : i ∈ order) :
    (order.map fun j => (j, res j)).lookup i = some (res i) := by
  induction order with
  | nil => cases hi
  | cons j rest ih =>
    rcases List.mem_cons.mp hi with h | h
    · subst h
      simp [List.lookup]
    · by_cases hij : i = j
      · subst hij
        simp [List.lookup]
      · have : (i == j) = false := beq_false_of_ne hij
        simp [List.lookup, this, ih h]

lemma filterMap_eq_map_of_mem {β : Type} (l : List ℕ) (F : ℕ → Option β)
    (res : ℕ → β) (h : ∀ i ∈ l, F i = some (res i)) :
    l.filterMap F = l.map res := by
  induction l with
  | nil => rfl
  | cons j rest ih =>
    have hj := h j (List.mem_cons_self j rest)
    have := ih fun i hi => h i (List.mem_cons_of_mem j hi)
    simp [List.filterMap_cons, hj, this]

lemma sorted_le_range' (s n : ℕ) : List.Sorted (· ≤ ·) (List.range' s n) :=
  (List.pairwise_lt_range' s n 1 (by norm_num)).imp le_of_lt

/-- C5: for a batch whose edit tasks all succeed (after at most one
fallback), the runner returns `base :: edits` — exactly `N` images in
original task-index order, with index `0` the base-generation result and the
edit results reassembled by index — and the output is the same for every
completion order of the pool (any permutation `order` of the submitted
indices `1..N-1`). -/
theorem run_batch_preserves_index_order {α E : Type} (b : α)
    (baseCall : Except E α) (edit fresh : ℕ → Except E α) (n : ℕ)
    (order : List ℕ) (res : ℕ → α)
    (hbase : baseCall = .ok b)
    (hperm : order.Perm (List.range' 1 n))
    (hok : ∀ i ∈ List.range' 1 n, generate_expression edit fresh i = .ok (res i)) :
    run_batch baseCall edit fresh order = .ok (b :: (List.range' 1 n).map res) := by
  subst hbase
  have hok' : ∀ i ∈ order, generate_expression edit fresh i = .ok (res i) :=
    fun i hi => hok i (hperm.mem_iff.mp hi)
  have hcollect := collect_results_ok (generate_expression edit fresh) res order hok'
  unfold run_batch
  rw [hcollect]
  have hkeys : ((order.map fun i => (i, res i)).map Prod.fst) = order := by
    simp [Function.comp_def]
  have hsortEq : (order.insertionSort (· ≤ ·)) = List.range' 1 n := by
    refine List.eq_of_perm_of_sorted ?_ (List.sorted_insertionSort _ order)
      (sorted_le_range' 1 n)
    exact (List.perm_insertionSort _ order).trans hperm
  have hassemble : assemble_in_index_order (order.map fun i => (i, res i))
      = (List.range' 1 n).map res := by
    unfold assemble_in_index_order
    rw [hkeys, hsortEq]
    refine filterMap_eq_map_of_mem _ _ res fun i hi => ?_
    exact lookup_map_pair res order i (hperm.mem_iff.mpr hi)
  simp [hassemble]

/-- Witness for C5: three edit tasks completing in order `[3, 1, 2]` still
yield the index-ordered batch `[5, 10, 20, 30]`. -/
theorem run_batch_preserves_index_order_witness :
    ((Except.ok 5 : Except Unit ℕ) = Except.ok 5
      ∧ List.Perm [3, 1, 2] (List.range' 1 3)
      ∧ ∀ i ∈ List.range' 1 3,
          generate_expression (fun i => Except.ok (10 * i))
            (fun _ => Except.error ()) i = Except.ok (10 * i))
    ∧ run_batch (Except.ok 5) (fun i => Except.ok (10 * i))
        (fun _ => Except.error ()) [3, 1, 2] = Except.ok [5, 10, 20, 30] :=
  ⟨⟨rfl, by decide, by intro i hi; fin_cases hi <;> rfl⟩,
    run_batch_preserves_index_order 5 (Except.ok 5) (fun i => Except.ok (10 * i))
      (fun _ => Except.error ()) 3 [3, 1, 2] (fun i => 10 * i) rfl (by decide)
      (by intro i hi; fin_cases hi <;> rfl)⟩

lemma collect_results_error {α E : Type} (g : ℕ → Except E α)
    (order : List ℕ) (i : ℕ) (e : E) (hmem : i ∈ order)
    (herr : g i = .error e) :
    ∃ j e2, collect_results g order = .error (j, e2) := by
  induction order with
  | nil => cases hmem
  | cons j rest ih =>
    cases hgj : g j with
    | error e3 => exact ⟨j, e3, by simp [collect_results, hgj]⟩
    | ok r =>
      have hij : i ≠ j := fun h => by rw [h, hgj] at herr; cases herr
      have hirest : i ∈ rest := (List.mem_cons.mp hmem).resolve_left hij
      obtain ⟨j2, e2, hc⟩ := ih hirest
      exact ⟨j2, e2, by simp [collect_results, hgj, hc]⟩

/-- C6: when the edit call for a task fails, the runner retries exactly once
via the fallback call with no base-image reference: the task result is
literally the single fallback call's result.  If that fallback also fails,
the batch as a whole returns a task-level failure and no partial list of
results. -/
theorem edit_failure_retries_once_then_aborts {α E : Type}
    (edit fresh : ℕ → Except E α) (b : α) (order : List ℕ) (i : ℕ) (e : E)
    (hmem : i ∈ order) (hedit : edit i = .error e) :
    generate_expression edit fresh i = fresh i
    ∧ (∀ e2, fresh i = .error e2
        → ∃ j e3, run_batch (Except.ok b) edit fresh order
            = Except.error (some j, e3)) := by
  constructor
  · unfold generate_expression
    rw [hedit]
  · intro e2 hfresh
    have hgen : generate_expression edit fresh i = .error e2 := by
      unfold generate_expression
      rw [hedit, hfresh]
    obtain ⟨j, e3, hc⟩ :=
      collect_results_error (generate_expression edit fresh) order i e2 hmem hgen
    exact ⟨j, e3, by simp [run_batch, hc]⟩

/-- Witness for C6: task 2's edit and fallback both fail; the batch aborts. -/
theorem edit_failure_retries_once_then_aborts_witness :
    ((2 ∈ [1, 2, 3])
      ∧ (fun i => if i = 2 then (Except.error () : Except Unit ℕ)
          else Except.ok i) 2 = Except.error ())
    ∧ (generate_expression
          (fun i => if i = 2 then (Except.error () : Except Unit ℕ) else Except.ok i)
          (fun _ => Except.error ()) 2
        = (fun _ => (Except.error () : Except Unit ℕ)) 2
      ∧ (∀ e2, (fun _ => (Except.error () : Except Unit ℕ)) 2 = Except.error e2
          → ∃ j e3, run_batch (Except.ok 7)
              (fun i => if i = 2 then (Except.error () : Except Unit ℕ) else Except.ok i)
              (fun _ => Except.error ()) [1, 2, 3]
              = Except.error (some j, e3))) :=
  ⟨⟨by decide, rfl⟩,
    edit_failure_retries_once_then_aborts
      (fun i => if i = 2 then (Except.error () : Except Unit ℕ) else Except.ok i)
      (fun _ => Except.error ()) 7 [1, 2, 3] 2 () (by decide) rfl⟩

/-! ## Matte edge cleaner (`remove_green_background`, `server/main.py`)

An RGBA buffer is embedded as a total function `ℕ × ℕ → Pix` together with
explicit width and height; position `(x, y)` is column `x`, row `y`, matching
the PIL access `pixels[x, y]`.  The float comparisons `g > r * 1.2`,
`g > r * 1.5` and `int((r + b) / 2)` are exact for 8-bit channel values and
are embedded as `5g > 6r`, `2g > 3r` and natural floor division. -/

/-- One RGBA pixel, 8-bit channels as naturals. -/
structure Pix where
  r : ℕ
  g : ℕ
  b : ℕ
  a : ℕ
deriving DecidableEq, Repr

/-- `new_g = int((r + b) / 2)`. -/
def avgRB (p : Pix) : ℕ := (p.r + p.b) / 2

/-- The `0 < a < 255` branch of the per-pixel loop, statement by statement:
first the green-dominance write, then the alpha snap.  The snap writes
`pixels[x, y] = (r, g, b, 0)` / `(r, g, b, 255)` using the *original*
unpacked locals `r, g, b`, so it reinstates the pre-correction green. -/
def cleanPartial (p : Pix) : Pix :=
  let p1 := if 5 * p.g > 6 * p.r ∧ 5 * p.g > 6 * p.b
            then { p with g := avgRB p } else p
  if p.a < 30 then { r := p.r, g := p.g, b := p.b, a := 0 }
  else if p.a > 225 then { r := p.r, g := p.g, b := p.b, a := 255 }
  else p1

/-- The complete per-pixel update of the cleanup loop: the partially
transparent branch, the fully opaque green-edge branch (gated on the
8-neighborhood flag `edge`), and the untouched `a == 0` case. -/
def cleanPixel (p : Pix) (edge : Bool) : Pix :=
  if 0 < p.a ∧ p.a < 255 then cleanPartial p
  else if p.a = 255 ∧ 2 * p.g > 3 * p.r ∧ 2 * p.g > 3 * p.b ∧ p.g > 150
      ∧ edge = true
  then { p with g := avgRB p }
  else p

/-- The eight neighbor offsets `(dx, dy)` visited by the `is_edge` loops. -/
def neighborOffsets : List (Int × Int) :=
  [(-1, -1), (-1, 0), (-1, 1), (0, -1), (0, 1), (1, -1), (1, 0), (1, 1)]

/-- `is_edge`: some in-bounds 8-neighbor of `(x, y)` has alpha `< 255` in
buffer `f`. -/
def isEdge (f : ℕ × ℕ → Pix) (w h : ℕ) (x y : ℕ) : Bool :=
  neighborOffsets.any fun d =>
    decide (0 ≤ (x : Int) + d.1) && decide ((x : Int) + d.1 < (w : Int)) &&
    decide (0 ≤ (y : Int) + d.2) && decide ((y : Int) + d.2 < (h : Int)) &&
    decide ((f (((x : Int) + d.1).toNat, ((y : Int) + d.2).toNat)).a < 255)

/-- One iteration of the nested pixel loops at `pos`: read the evolving
buffer, write the updated pixel back into it. -/
def stepAt (w h : ℕ) (f : ℕ × ℕ → Pix) (pos : ℕ × ℕ) : ℕ × ℕ → Pix :=
  Function.update f pos (cleanPixel (f pos) (isEdge f w h pos.1 pos.2))

/-- The raster visit order of the loops: `y` outer, `x` inner. -/
def rasterPositions (w h : ℕ) : List (ℕ × ℕ) :=
  (List.range h).flatMap fun y => (List.range w).map fun x => (x, y)

/-- Step 2 of `remove_green_background`: the in-place cleanup pass over the
mutable PIL buffer. -/
def cleanupInPlace (w h : ℕ) (img : ℕ × ℕ → Pix) : ℕ × ℕ → Pix :=
  (rasterPositions w h).foldl (stepAt w h) img

/-- Modelled from the spec: the reference pass of C3, in which every
own-pixel and neighbor read is taken from the pre-pass snapshot `img`, never
from a value rewritten earlier in the same pass. -/
def cleanupSnapshot (w h : ℕ) (img : ℕ × ℕ → Pix) : ℕ × ℕ → Pix :=
  fun pos =>
    if pos.1 < w ∧ pos.2 < h
    then cleanPixel (img pos) (isEdge img w h pos.1 pos.2)
    else img pos

/-- Modelled from the spec: C2's description of the partially-transparent
branch — green set to the red/blue average with alpha untouched at that step,
*then* the alpha snap (which therefore keeps the corrected green). -/
def claimedCleanPartial (p : Pix) : Pix :=
  let p1 := if 5 * p.g > 6 * p.r ∧ 5 * p.g > 6 * p.b
            then { p with g := avgRB p } else p
  if p1.a < 30 then { p1 with a := 0 }
  else if p1.a > 225 then { p1 with a := 255 }
  else p1

/-- C2: evaluation at the failing input, a single pixel
`(r, g, b, a) = (50, 200, 50, 230)`.  It is green-dominant with
`225 < a < 255`, so the claim requires green to be corrected to `50` and
alpha snapped to `255`; the code's alpha-snap write reuses the stale original
green `200`, undoing the correction. -/
theorem stale_green_on_alpha_snap :
    cleanupInPlace 1 1 (fun _ => ⟨50, 200, 50, 230⟩) (0, 0)
        = ⟨50, 200, 50, 255⟩
    ∧ claimedCleanPartial ⟨50, 200, 50, 230⟩ = ⟨50, 50, 50, 255⟩ := by
  constructor
  · decide
  · decide

/-- C4: evaluation at the failing input, the 2×1 image
`[(50, 200, 50, 230), (100, 100, 100, 100)]`.  One pass turns pixel `(0,0)`
into `(50, 200, 50, 255)` (green restored by the stale snap write); a second
pass then finds it opaque, green-dominant and edge-adjacent and rewrites its
green to `50`, so the pass is not idempotent. -/
theorem cleanup_pass_not_idempotent :
    cleanupInPlace 2 1
        (cleanupInPlace 2 1 (fun pos =>
          if pos = (0, 0) then ⟨50, 200, 50, 230⟩
          else if pos = (1, 0) then ⟨100, 100, 100, 100⟩
          else ⟨0, 0, 0, 0⟩)) (0, 0)
      ≠ cleanupInPlace 2 1 (fun pos =>
          if pos = (0, 0) then ⟨50, 200, 50, 230⟩
          else if pos = (1, 0) then ⟨100, 100, 100, 100⟩
          else ⟨0, 0, 0, 0⟩) (0, 0) := by
  decide

/-- C3 counterexample: on the 2×1 image
`[(100, 100, 100, 230), (50, 200, 50, 255)]` the in-place pass first snaps
pixel `(0,0)`'s alpha from `230` to `255`; when it then visits the opaque
green pixel `(1,0)` the neighbor read sees the rewritten alpha, finds no edge
and leaves the green spill in place, while the snapshot-reference pass
corrects it — so the code's output differs from the reference pass. -/
theorem in_place_differs_from_snapshot :
    cleanupInPlace 2 1
        (fun pos =>
          if pos = (0, 0) then ⟨100, 100, 100, 230⟩
          else if pos = (1, 0) then ⟨50, 200, 50, 255⟩
          else ⟨0, 0, 0, 0⟩) (1, 0)
      ≠ cleanupSnapshot 2 1
        (fun pos =>
          if pos = (0, 0) then ⟨100, 100, 100, 230⟩
          else if pos = (1, 0) then ⟨50, 200, 50, 255⟩
          else ⟨0, 0, 0, 0⟩) (1, 0) := by
  decide

/-! ### The in-place pass agrees with the snapshot pass when no alpha lies
strictly between 225 and 255.

During the pass, alpha only ever changes from a value in `(0, 30)` to `0` or
from a value in `(225, 255)` to `255`; only the second transition can change
a neighbor's `alpha < 255` status.  Excluding the upper band therefore makes
every neighbor-alpha read agree with the snapshot. -/

lemma cleanPartial_a (p : Pix) :
    (cleanPartial p).a = if p.a < 30 then 0 else if p.a > 225 then 255 else p.a := by
  unfold cleanPartial
  split_ifs with h1 h2 h3 <;> simp_all

lemma cleanPixel_alpha_status (p : Pix) (e : Bool)
    (hp : ¬(225 < p.a ∧ p.a < 255)) :
    ((cleanPixel p e).a < 255 ↔ p.a < 255) := by
  unfold cleanPixel
  split_ifs with h1 h2
  · rw [cleanPartial_a]
    split_ifs <;> omega
  · exact Iff.rfl
  · exact Iff.rfl

lemma isEdge_congr (f f2 : ℕ × ℕ → Pix) (w h x y : ℕ)
    (hstat : ∀ q : ℕ × ℕ, q.1 < w → q.2 < h
      → ((f q).a < 255 ↔ (f2 q).a < 255)) :
    isEdge f w h x y = isEdge f2 w h x y := by
  unfold isEdge
  rw [Bool.eq_iff_iff]
  simp only [List.any_eq_true, Bool.and_eq_true, decide_eq_true_eq]
  constructor
  · rintro ⟨d, hd, ⟨⟨⟨hx0, hxw⟩, hy0⟩, hyh⟩, ha⟩
    refine ⟨d, hd, ⟨⟨⟨hx0, hxw⟩, hy0⟩, hyh⟩, ?_⟩
    have hxlt : ((x : Int) + d.1).toNat < w := by omega
    have hylt : ((y : Int) + d.2).toNat < h := by omega
    exact (hstat _ hxlt hylt).mp ha
  · rintro ⟨d, hd, ⟨⟨⟨hx0, hxw⟩, hy0⟩, hyh⟩, ha⟩
    refine ⟨d, hd, ⟨⟨⟨hx0, hxw⟩, hy0⟩, hyh⟩, ?_⟩
    have hxlt : ((x : Int) + d.1).toNat < w := by omega
    have hylt : ((y : Int) + d.2).toNat < h := by omega
    exact (hstat _ hxlt hylt).mpr ha

lemma mem_rasterPositions (w h : ℕ) (p : ℕ × ℕ) :
    p ∈ rasterPositions w h ↔ p.1 < w ∧ p.2 < h := by
  unfold rasterPositions
  simp only [List.mem_flatMap, List.mem_map, List.mem_range]
  constructor
  · rintro ⟨y, hy, x, hx, rfl⟩
    exact ⟨hx, hy⟩
  · rintro ⟨h1, h2⟩
    exact ⟨p.2, h2, p.1, h1, rfl⟩

lemma nodup_rasterPositions (w h : ℕ) : (rasterPositions w h).Nodup := by
  unfold rasterPositions
  rw [List.nodup_flatMap]
  refine ⟨fun y _ => (List.nodup_range w).map fun a b hab => congrArg Prod.fst hab, ?_⟩
  have hpw : List.Pairwise (· ≠ ·) (List.range h) := List.nodup_range h
  refine hpw.imp ?_
  intro a b hab q hqa hqb
  simp only [List.mem_map, List.mem_range] at hqa hqb
  obtain ⟨x1, _, rfl⟩ := hqa
  obtain ⟨x2, _, h2⟩ := hqb
  exact hab (congrArg Prod.snd h2).symm

lemma foldl_stepAt_eq (w h : ℕ) (img : ℕ × ℕ → Pix)
    (H : ∀ q : ℕ × ℕ, q.1 < w → q.2 < h
      → ¬(225 < (img q).a ∧ (img q).a < 255)) :
    ∀ (l : List (ℕ × ℕ)) (f : ℕ × ℕ → Pix),
      l.Nodup →
      (∀ p ∈ l, p.1 < w ∧ p.2 < h) →
      (∀ q ∈ l, f q = img q) →
      (∀ q, q ∉ l → f q = cleanupSnapshot w h img q) →
      ∀ q, l.foldl (stepAt w h) f q = cleanupSnapshot w h img q := by
  intro l
  induction l with
  | nil =>
    intro f _ _ _ hout q
    exact hout q (by simp)
  | cons p rest ih =>
    intro f hnd hbounds hin hout q
    have hstat : ∀ r : ℕ × ℕ, r.1 < w → r.2 < h
        → ((f r).a < 255 ↔ (img r).a < 255) := by
      intro r hr1 hr2
      by_cases hr : r ∈ p :: rest
      · rw [hin r hr]
      · rw [hout r hr]
        unfold cleanupSnapshot
        rw [if_pos ⟨hr1, hr2⟩]
        exact cleanPixel_alpha_status _ _ (H r hr1 hr2)
    have hbp := hbounds p (List.mem_cons_self p rest)
    have hfp : f p = img p := hin p (List.mem_cons_self p rest)
    have hedge : isEdge f w h p.1 p.2 = isEdge img w h p.1 p.2 :=
      isEdge_congr f img w h p.1 p.2 hstat
    have hstep : stepAt w h f p
        = Function.update f p (cleanPixel (img p) (isEdge img w h p.1 p.2)) := by
      unfold stepAt
      rw [hfp, hedge]
    have hpnotin : p ∉ rest := (List.nodup_cons.mp hnd).1
    rw [List.foldl_cons, hstep]
    apply ih
    · exact (List.nodup_cons.mp hnd).2
    · exact fun r hr => hbounds r (List.mem_cons_of_mem p hr)
    · intro r hr
      have hrp : r ≠ p := fun hc => hpnotin (hc ▸ hr)
      rw [Function.update_noteq hrp]
      exact hin r (List.mem_cons_of_mem p hr)
    · intro r hr
      by_cases hrp : r = p
      · subst hrp
        rw [Function.update_same]
        unfold cleanupSnapshot
        rw [if_pos ⟨hbp.1, hbp.2⟩]
      · rw [Function.update_noteq hrp]
        exact hout r (by simp [hrp, hr])

/-- C3 amended: the in-place cleanup pass reads neighbor alpha from the
partially rewritten buffer, so in general its output differs from the
snapshot-reference pass (see the counterexample); it agrees with the
reference pass on every image none of whose pixels has alpha strictly
between 225 and 255 — exactly the alpha band whose mid-pass snap to 255 is
the only rewrite a later neighbor lookup can observe. -/
theorem in_place_eq_snapshot_without_upper_alpha_band (w h : ℕ)
    (img : ℕ × ℕ → Pix)
    (H : ∀ q : ℕ × ℕ, q.1 < w → q.2 < h
      → ¬(225 < (img q).a ∧ (img q).a < 255)) :
    ∀ q, cleanupInPlace w h img q = cleanupSnapshot w h img q := by
  unfold cleanupInPlace
  apply foldl_stepAt_eq w h img H (rasterPositions w h) img
    (nodup_rasterPositions w h)
  · intro r hr
    exact (mem_rasterPositions w h r).mp hr
  · intro r _
    rfl
  · intro r hr
    have : ¬(r.1 < w ∧ r.2 < h) := fun hc => hr ((mem_rasterPositions w h r).mpr hc)
    unfold cleanupSnapshot
    rw [if_neg this]

/-- Witness for the amended C3: a 2×2 image with alphas `0, 100, 255, 20`
(none in `(225, 255)`), evaluated at pixel `(0, 0)`. -/
theorem in_place_eq_snapshot_without_upper_alpha_band_witness :
    (∀ q : ℕ × ℕ, q.1 < 2 → q.2 < 2
      → ¬(225 < ((fun pos =>
            if pos = ((0 : ℕ), (0 : ℕ)) then (⟨10, 250, 10, 0⟩ : Pix)
            else if pos = (1, 0) then ⟨100, 100, 100, 100⟩
            else if pos = (0, 1) then ⟨50, 200, 50, 255⟩
            else ⟨20, 20, 20, 20⟩) q).a
          ∧ ((fun pos =>
            if pos = ((0 : ℕ), (0 : ℕ)) then (⟨10, 250, 10, 0⟩ : Pix)
            else if pos = (1, 0) then ⟨100, 100, 100, 100⟩
            else if pos = (0, 1) then ⟨50, 200, 50, 255⟩
            else ⟨20, 20, 20, 20⟩) q).a < 255))
    ∧ cleanupInPlace 2 2 (fun pos =>
          if pos = ((0 : ℕ), (0 : ℕ)) then (⟨10, 250, 10, 0⟩ : Pix)
          else if pos = (1, 0) then ⟨100, 100, 100, 100⟩
          else if pos = (0, 1) then ⟨50, 200, 50, 255⟩
          else ⟨20, 20, 20, 20⟩) (0, 1)
      = cleanupSnapshot 2 2 (fun pos =>
          if pos = ((0 : ℕ), (0 : ℕ)) then (⟨10, 250, 10, 0⟩ : Pix)
          else if pos = (1, 0) then ⟨100, 100, 100, 100⟩
          else if pos = (0, 1) then ⟨50, 200, 50, 255⟩
          else ⟨20, 20, 20, 20⟩) (0, 1) :=
  ⟨by intro q h1 h2; obtain ⟨x, y⟩ := q; interval_cases x <;> interval_cases y <;> decide,
    in_place_eq_snapshot_without_upper_alpha_band 2 2 _
      (by intro q h1 h2; obtain ⟨x, y⟩ := q; interval_cases x <;> interval_cases y <;> decide)
      (0, 1)⟩

/-! ### Failure policy of `remove_green_background` -/

/-- `remove_green_background(image_bytes)` with its external collaborators
explicit: `extMatting` is the alpha-matting `rembg` call returning the
decoded RGBA buffer with its dimensions, `enc` the PNG re-encoding of the
cleaned buffer, and `extBasic` the plain `rembg` call used as first
fallback.  On success of `extMatting` the in-place cleanup pass runs and its
result is encoded; on its failure the result is whatever `extBasic` returns
on the original bytes; if that also fails, the original bytes are returned
unmodified. -/
def remove_green_background {β : Type}
    (extMatting : β → Except Unit ((ℕ × ℕ → Pix) × ℕ × ℕ))
    (enc : (ℕ × ℕ → Pix) → β)
    (extBasic : β → Except Unit β) (img : β) : β :=
  match extMatting img with
  | .ok (f, w, h) => enc (cleanupInPlace w h f)
  | .error _ =>
    match extBasic img with
    | .ok o => o
    | .error _ => img

/-- C9 counterexample: with the enhanced matte step failing on the same
original image, the pipeline's output is whatever the external basic
`rembg` call returns — two different behaviors of that external call give two
different outputs for the same image, so the first fallback is not any
deterministic global threshold pass over the original image (which would
leave non-green-dominant pixels' alpha as-is and depend on the image
alone). -/
theorem fallback_is_external_call_not_threshold_pass :
    remove_green_background (fun _ => Except.error ()) (fun _ => 0)
        (fun _ => Except.ok 11) 5
      ≠ remove_green_background (fun _ => Except.error ()) (fun _ => 0)
        (fun _ => Except.ok 22) 5 := by
  decide

/-- C9 amended: if the enhanced matte step fails outright, the cleaner falls
back to the basic external `rembg` call on the original image and returns its
output; if that call also fails, the original image is returned unmodified —
and in no case does the matte pipeline fail the request (the embedding is a
total function into the byte type). -/
theorem matte_failure_fallback_chain {β : Type}
    (extMatting : β → Except Unit ((ℕ × ℕ → Pix) × ℕ × ℕ))
    (enc : (ℕ × ℕ → Pix) → β)
    (extBasic : β → Except Unit β) (img : β) (e : Unit)
    (h : extMatting img = Except.error e) :
    (∀ o, extBasic img = Except.ok o
      → remove_green_background extMatting enc extBasic img = o)
    ∧ (∀ e2, extBasic img = Except.error e2
      → remove_green_background extMatting enc extBasic img = img) := by
  constructor
  · intro o ho
    unfold remove_green_background
    rw [h, ho]
  · intro e2 he
    unfold remove_green_background
    rw [h, he]

/-- Witness for the amended C9: both fallback levels, on concrete oracles. -/
theorem matte_failure_fallback_chain_witness :
    ((fun _ => (Except.error () : Except Unit ((ℕ × ℕ → Pix) × ℕ × ℕ))) 5
        = Except.error ())
    ∧ ((∀ o, (fun _ => (Except.ok 11 : Except Unit ℕ)) 5 = Except.ok o
        → remove_green_background (fun _ => Except.error ()) (fun _ => 0)
            (fun _ => Except.ok 11) 5 = o)
      ∧ (∀ e2, (fun _ => (Except.ok 11 : Except Unit ℕ)) 5 = Except.error e2
        → remove_green_background (fun _ => Except.error ()) (fun _ => 0)
            (fun _ => Except.ok 11) 5 = 5)) :=
  ⟨rfl,
    matte_failure_fallback_chain (fun _ => Except.error ()) (fun _ => 0)
      (fun _ => Except.ok 11) 5 () rfl⟩

end MakeIllust
